import Mathlib

/-!
Shallow embedding of the NSW Rural Fire Service feed platform
(homeassistant/components/geo_location/nsw_rural_fire_service_feed.py).

The reconciliation engine (class NswRuralFireServiceFeedManager) is modelled
as a pure state-transition function.  ManagerState carries `feed_entries`
(the Python dict, as an association list in insertion order) and
`managed_external_ids` (the Python set, as a duplicate-free list).  Each
observable side effect of a cycle — a dispatcher_send of a delete or update
signal, or the call to add_entities — is recorded as a TraceItem, which also
snapshots the tracked-id set at the moment the effect happens, so that
ordering claims about mutation-before-signal can be stated.
-/

namespace NswRuralFireService

/-- A feed entry produced by the fetch collaborator (geojson_client).
Non-identity attributes are optional; numeric attributes are modelled as
integers because the engine only copies them, never computes with them. -/
structure FeedEntry where
  external_id : String
  title : Option String
  distance_to_home : Option Int
  coordinates : Int × Int
  attribution : Option String
  category : Option String
  publication_date : Option String
  location : Option String
  council_area : Option String
  status : Option String
  type : Option String
  fire : Option Bool
  size : Option String
  responsible_agency : Option String
deriving DecidableEq, Repr

/-- The internal state of a downstream consumer
(class NswRuralFireServiceLocationEvent): one field per attribute set in
its constructor, all initialised to None there. -/
structure LocationEvent where
  external_id : String
  name : Option String
  distance : Option Int
  latitude : Option Int
  longitude : Option Int
  attribution : Option String
  category : Option String
  publication_date : Option String
  location : Option String
  council_area : Option String
  status : Option String
  type : Option String
  fire : Option Bool
  size : Option String
  responsible_agency : Option String
deriving DecidableEq, Repr

/-- NswRuralFireServiceLocationEvent.__init__: every attribute other than
the external id starts as None. -/
def LocationEvent.init (external_id : String) : LocationEvent :=
  { external_id := external_id
    name := none, distance := none, latitude := none, longitude := none
    attribution := none, category := none, publication_date := none
    location := none, council_area := none, status := none, type := none
    fire := none, size := none, responsible_agency := none }

/-- NswRuralFireServiceLocationEvent._update_from_feed: copy every
attribute of the feed entry into the consumer state. -/
def update_from_feed (e : LocationEvent) (fe : FeedEntry) : LocationEvent :=
  { e with
    name := fe.title
    distance := fe.distance_to_home
    latitude := some fe.coordinates.1
    longitude := some fe.coordinates.2
    attribution := fe.attribution
    category := fe.category
    publication_date := fe.publication_date
    location := fe.location
    council_area := fe.council_area
    status := fe.status
    type := fe.type
    fire := fe.fire
    size := fe.size
    responsible_agency := fe.responsible_agency }

/-- The manager-owned state: `feed_entries` is the spec's current_records
(a dict keyed by external_id), `managed_external_ids` the spec's
tracked_ids (a set). -/
structure ManagerState where
  feed_entries : List (String × FeedEntry)
  managed_external_ids : List String
deriving DecidableEq, Repr

def keysOf (d : List (String × FeedEntry)) : List String := d.map Prod.fst

/-- One step of building a Python dict: a repeated key keeps its original
position and takes the new value, a fresh key is appended. -/
def upsert (d : List (String × FeedEntry)) (k : String) (v : FeedEntry) :
    List (String × FeedEntry) :=
  if k ∈ keysOf d then d.map (fun p => if p.1 = k then (k, v) else p)
  else d ++ [(k, v)]

/-- The dict comprehension in _update:
\x7bentry.external_id: entry for entry in feed_entries\x7d. -/
def buildDict (entries : List FeedEntry) : List (String × FeedEntry) :=
  entries.foldl (fun d e => upsert d e.external_id e) []

/-- Python dict .get(key). -/
def dict_get (d : List (String × FeedEntry)) (k : String) : Option FeedEntry :=
  (d.find? (fun p => decide (p.1 = k))).map Prod.snd

/-- NswRuralFireServiceLocationEvent.async_update: look the entry up in the
manager's feed_entries; only update the internal state when one is found. -/
def async_update (mgr : ManagerState) (e : LocationEvent) : LocationEvent :=
  match dict_get mgr.feed_entries e.external_id with
  | none => e
  | some fe => update_from_feed e fe

/-- An observable effect of a reconciliation cycle: a dispatcher_send on a
per-identifier delete or update channel, or the add_entities call (whose
second argument is the update-before-add flag). -/
inductive Event where
  | delete_signal (external_id : String)
  | update_signal (external_id : String)
  | add_entities (new_entities : List LocationEvent) (update_before_add : Bool)
deriving DecidableEq, Repr

/-- An effect paired with the tracked-id set at the moment it happens. -/
structure TraceItem where
  event : Event
  tracked : List String
deriving DecidableEq, Repr

/-- The status returned by the fetch collaborator: UPDATE_OK,
UPDATE_OK_NO_DATA, or anything else (the else-branch of _update). -/
inductive FetchStatus where
  | update_ok
  | update_ok_no_data
  | update_error
deriving DecidableEq, Repr

/-- Python set.add. -/
def insertSet (m : List String) (x : String) : List String :=
  if x ∈ m then m else m ++ [x]

def insertAll (m : List String) (ids : List String) : List String :=
  ids.foldl insertSet m

def eraseAll (m : List String) (ids : List String) : List String :=
  ids.foldl (fun acc x => acc.erase x) m

/-- Python set.difference. -/
def setDiff (a b : List String) : List String :=
  a.filter (fun x => decide (x ∉ b))

/-- Python set.intersection. -/
def setInter (a b : List String) : List String :=
  a.filter (fun x => decide (x ∈ b))

/-- NswRuralFireServiceFeedManager._remove_entities: for each id, first
discard it from managed_external_ids (set.remove), then send the delete
signal; the TraceItem snapshots the tracked set as it is at send time. -/
def remove_entities (st : ManagerState) (ids : List String) :
    ManagerState × List TraceItem :=
  match ids with
  | [] => (st, [])
  | x :: rest =>
    let st1 : ManagerState :=
      { st with managed_external_ids := st.managed_external_ids.erase x }
    let r := remove_entities st1 rest
    (r.1, ⟨Event.delete_signal x, st1.managed_external_ids⟩ :: r.2)

/-- NswRuralFireServiceFeedManager._update_entities: send one update signal
per id; no state change. -/
def update_entities (st : ManagerState) (ids : List String) :
    ManagerState × List TraceItem :=
  (st, ids.map (fun x => ⟨Event.update_signal x, st.managed_external_ids⟩))

/-- One iteration of the loop in _generate_new_entities: append the newly
constructed consumer and add its id to managed_external_ids. -/
def genStep (acc : List LocationEvent × List String) (x : String) :
    List LocationEvent × List String :=
  (acc.1 ++ [LocationEvent.init x], insertSet acc.2 x)

/-- NswRuralFireServiceFeedManager._generate_new_entities: build the batch
of new consumers, then hand it to add_entities in one call with the flag
True — unconditionally, even for an empty batch. -/
def generate_new_entities (st : ManagerState) (ids : List String) :
    ManagerState × List TraceItem :=
  let r := ids.foldl genStep ([], st.managed_external_ids)
  ({ st with managed_external_ids := r.2 },
   [⟨Event.add_entities r.1 true, r.2⟩])

/-- feed_external_ids = set(self.feed_entries): the key set of the freshly
built dict. -/
def feed_external_ids (fetched : List FeedEntry) : List String :=
  keysOf (buildDict fetched)

/-- remove_external_ids = managed_external_ids.difference(feed_external_ids),
computed before any removal. -/
def remove_external_ids (st : ManagerState) (fetched : List FeedEntry) :
    List String :=
  setDiff st.managed_external_ids (feed_external_ids fetched)

/-- The state and trace right after the removal step of a success cycle
(feed_entries has already been replaced wholesale). -/
def after_remove (st : ManagerState) (fetched : List FeedEntry) :
    ManagerState × List TraceItem :=
  remove_entities { st with feed_entries := buildDict fetched }
    (remove_external_ids st fetched)

/-- update_external_ids = managed_external_ids.intersection(feed_external_ids),
computed after the removal step, exactly as in _update. -/
def update_external_ids (st : ManagerState) (fetched : List FeedEntry) :
    List String :=
  setInter (after_remove st fetched).1.managed_external_ids
    (feed_external_ids fetched)

/-- The state and trace right after the update-signal step. -/
def after_update (st : ManagerState) (fetched : List FeedEntry) :
    ManagerState × List TraceItem :=
  update_entities (after_remove st fetched).1 (update_external_ids st fetched)

/-- create_external_ids = feed_external_ids.difference(managed_external_ids),
computed after the removal and update steps, exactly as in _update. -/
def create_external_ids (st : ManagerState) (fetched : List FeedEntry) :
    List String :=
  setDiff (feed_external_ids fetched)
    (after_update st fetched).1.managed_external_ids

/-- NswRuralFireServiceFeedManager._update, one reconciliation cycle:
on UPDATE_OK replace feed_entries with the new dict, then remove, update,
create in that order; on UPDATE_OK_NO_DATA do nothing; on any other status
remove every managed id (a copy of the managed set is iterated). -/
def update (st : ManagerState) (status : FetchStatus)
    (fetched : List FeedEntry) : ManagerState × List TraceItem :=
  match status with
  | FetchStatus.update_ok =>
    let r1 := after_remove st fetched
    let r2 := update_entities r1.1 (update_external_ids st fetched)
    let r3 := generate_new_entities r2.1 (create_external_ids st fetched)
    (r3.1, r1.2 ++ r2.2 ++ r3.2)
  | FetchStatus.update_ok_no_data => (st, [])
  | FetchStatus.update_error => remove_entities st st.managed_external_ids

/-- Number of occurrences of one event in a trace. -/
def countEvent (tr : List TraceItem) (e : Event) : Nat :=
  (tr.filter (fun it => decide (it.event = e))).length

/-- A sample feed entry for concrete evaluations. -/
def sampleEntry : FeedEntry :=
  { external_id := "a", title := some "Fire A", distance_to_home := some 5
    coordinates := (1, 2), attribution := none, category := some "Advice"
    publication_date := none, location := none, council_area := none
    status := none, type := none, fire := some true, size := none
    responsible_agency := none }

/-- A sample feed entry with a different id. -/
def sampleEntryB : FeedEntry :=
  { sampleEntry with external_id := "b", title := some "Fire B" }

/-- A sample manager state tracking one id with its record present. -/
def st0 : ManagerState :=
  { feed_entries := [("a", sampleEntry)], managed_external_ids := ["a"] }

/-! ### Basic list lemmas -/

theorem length_filter_map {α β : Type} (f : α → β) (p : β → Bool) (l : List α) :
    ((l.map f).filter p).length = (l.filter (fun a => p (f a))).length := by
  induction l with
  | nil => rfl
  | cons a t ih =>
    simp only [List.map_cons, List.filter_cons]
    by_cases h : p (f a)
    · simp [h, ih]
    · simp [h, ih]

theorem length_filter_eq_of_nodup {l : List String} {x : String} (h : l.Nodup) :
    (l.filter (fun y => decide (y = x))).length = if x ∈ l then 1 else 0 := by
  induction l with
  | nil => simp
  | cons a t ih =>
    rcases List.nodup_cons.mp h with ⟨ha, ht⟩
    by_cases hax : a = x
    · subst hax
      have hft : t.filter (fun y => decide (y = a)) = [] := by
        apply List.filter_eq_nil_iff.mpr
        intro y hy
        simp only [decide_eq_true_eq]
        intro e
        exact ha (e ▸ hy)
      simp [List.filter_cons, hft]
    · have hmem : (x ∈ a :: t) ↔ (x ∈ t) := by
        constructor
        · intro hx
          rcases List.mem_cons.mp hx with h1 | h1
          · exact absurd h1.symm hax
          · exact h1
        · exact List.mem_cons_of_mem a
      simp only [List.filter_cons, decide_eq_true_eq, hax, if_false, ih ht, hmem]

/-! ### Set-helper lemmas -/

theorem mem_setDiff {a b : List String} {x : String} :
    x ∈ setDiff a b ↔ x ∈ a ∧ x ∉ b := by
  simp [setDiff, List.mem_filter]

theorem mem_setInter {a b : List String} {x : String} :
    x ∈ setInter a b ↔ x ∈ a ∧ x ∈ b := by
  simp [setInter, List.mem_filter]

theorem mem_insertSet {m : List String} {x y : String} :
    y ∈ insertSet m x ↔ y ∈ m ∨ y = x := by
  unfold insertSet
  by_cases h : x ∈ m
  · rw [if_pos h]
    constructor
    · exact Or.inl
    · rintro (hy | rfl)
      · exact hy
      · exact h
  · rw [if_neg h]
    simp [List.mem_append]

theorem nodup_insertSet {m : List String} {x : String} (h : m.Nodup) :
    (insertSet m x).Nodup := by
  unfold insertSet
  by_cases hx : x ∈ m
  · simpa [hx]
  · rw [if_neg hx]
    refine h.append (List.nodup_singleton x) ?_
    intro a ha hax
    rw [List.mem_singleton] at hax
    exact hx (hax ▸ ha)

theorem insertAll_cons (m : List String) (x : String) (t : List String) :
    insertAll m (x :: t) = insertAll (insertSet m x) t := rfl

theorem mem_insertAll (ids : List String) (m : List String) (y : String) :
    y ∈ insertAll m ids ↔ y ∈ m ∨ y ∈ ids := by
  induction ids generalizing m with
  | nil => simp [insertAll]
  | cons a t ih =>
    rw [insertAll_cons, ih (insertSet m a)]
    rw [mem_insertSet]
    simp only [List.mem_cons]
    tauto

theorem nodup_insertAll (ids : List String) (m : List String) (h : m.Nodup) :
    (insertAll m ids).Nodup := by
  induction ids generalizing m with
  | nil => exact h
  | cons a t ih => exact ih (insertSet m a) (nodup_insertSet h)

theorem eraseAll_cons (m : List String) (x : String) (t : List String) :
    eraseAll m (x :: t) = eraseAll (m.erase x) t := rfl

theorem mem_eraseAll (ids : List String) (m : List String) (y : String)
    (h : m.Nodup) : y ∈ eraseAll m ids ↔ y ∈ m ∧ y ∉ ids := by
  induction ids generalizing m with
  | nil => simp [eraseAll]
  | cons a t ih =>
    rw [eraseAll_cons, ih (m.erase a) (h.erase a), h.mem_erase_iff]
    simp only [List.mem_cons]
    tauto

theorem nodup_eraseAll (ids : List String) (m : List String) (h : m.Nodup) :
    (eraseAll m ids).Nodup := by
  induction ids generalizing m with
  | nil => exact h
  | cons a t ih => exact ih (m.erase a) (h.erase a)

theorem eraseAll_self (m : List String) : eraseAll m m = [] := by
  induction m with
  | nil => rfl
  | cons a t ih =>
    rw [eraseAll_cons, List.erase_cons_head]
    exact ih

/-! ### Dict lemmas -/

theorem keysOf_map_if (d : List (String × FeedEntry)) (k : String) (v : FeedEntry) :
    keysOf (d.map (fun p => if p.1 = k then (k, v) else p)) = keysOf d := by
  induction d with
  | nil => rfl
  | cons p t ih =>
    simp only [keysOf, List.map_cons] at *
    by_cases h : p.1 = k
    · simp [h, ih]
    · simp [h, ih]

theorem keysOf_upsert (d : List (String × FeedEntry)) (k : String) (v : FeedEntry) :
    keysOf (upsert d k v) = if k ∈ keysOf d then keysOf d else keysOf d ++ [k] := by
  unfold upsert
  by_cases h : k ∈ keysOf d
  · rw [if_pos h, if_pos h, keysOf_map_if]
  · rw [if_neg h, if_neg h]
    simp [keysOf]

theorem nodup_keysOf_foldDict (entries : List FeedEntry) :
    ∀ d : List (String × FeedEntry), (keysOf d).Nodup →
      (keysOf (entries.foldl (fun d e => upsert d e.external_id e) d)).Nodup := by
  induction entries with
  | nil => intro d hd; exact hd
  | cons e t ih =>
    intro d hd
    simp only [List.foldl_cons]
    apply ih
    rw [keysOf_upsert]
    by_cases h : e.external_id ∈ keysOf d
    · simpa [h]
    · rw [if_neg h]
      refine hd.append (List.nodup_singleton _) ?_
      intro a ha hax
      rw [List.mem_singleton] at hax
      exact h (hax ▸ ha)

theorem nodup_feed_external_ids (fetched : List FeedEntry) :
    (feed_external_ids fetched).Nodup :=
  nodup_keysOf_foldDict fetched [] (by simp [keysOf])

/-! ### Lemmas about the three dispatch helpers -/

theorem remove_entities_fst (ids : List String) (st : ManagerState) :
    (remove_entities st ids).1 =
      { st with managed_external_ids := eraseAll st.managed_external_ids ids } := by
  induction ids generalizing st with
  | nil => rfl
  | cons x t ih =>
    simp only [remove_entities]
    rw [ih]
    rfl

theorem remove_entities_managed (ids : List String) (st : ManagerState) :
    (remove_entities st ids).1.managed_external_ids =
      eraseAll st.managed_external_ids ids := by
  rw [remove_entities_fst]

theorem remove_entities_feed (ids : List String) (st : ManagerState) :
    (remove_entities st ids).1.feed_entries = st.feed_entries := by
  rw [remove_entities_fst]

theorem remove_entities_events (ids : List String) (st : ManagerState) :
    (remove_entities st ids).2.map TraceItem.event =
      ids.map Event.delete_signal := by
  induction ids generalizing st with
  | nil => rfl
  | cons x t ih =>
    simp only [remove_entities, List.map_cons]
    rw [ih]

theorem remove_entities_delete_kind (ids : List String) (st : ManagerState) :
    ∀ it ∈ (remove_entities st ids).2, ∃ x, it.event = Event.delete_signal x := by
  induction ids generalizing st with
  | nil => intro it hit; simp [remove_entities] at hit
  | cons a t ih =>
    intro it hit
    simp only [remove_entities, List.mem_cons] at hit
    rcases hit with rfl | hit
    · exact ⟨a, rfl⟩
    · exact ih _ it hit

theorem remove_entities_snapshot (ids : List String) (st : ManagerState)
    (h : st.managed_external_ids.Nodup) :
    ∀ it ∈ (remove_entities st ids).2, ∀ x : String,
      it.event = Event.delete_signal x → x ∉ it.tracked := by
  induction ids generalizing st with
  | nil => intro it hit; simp [remove_entities] at hit
  | cons a t ih =>
    intro it hit x hx
    simp only [remove_entities, List.mem_cons] at hit
    rcases hit with rfl | hit
    · injection hx with h1
      subst h1
      intro hmem
      exact ((h.mem_erase_iff).mp hmem).1 rfl
    · exact ih _ (h.erase a) it hit x hx

theorem genFold_fst (ids : List String) (es : List LocationEvent) (m : List String) :
    (ids.foldl genStep (es, m)).1 = es ++ ids.map LocationEvent.init := by
  induction ids generalizing es m with
  | nil => simp
  | cons a t ih =>
    simp only [List.foldl_cons, genStep, List.map_cons]
    rw [ih]
    simp

theorem genFold_snd (ids : List String) (es : List LocationEvent) (m : List String) :
    (ids.foldl genStep (es, m)).2 = insertAll m ids := by
  induction ids generalizing es m with
  | nil => rfl
  | cons a t ih =>
    simp only [List.foldl_cons, genStep]
    rw [ih]
    rfl

theorem generate_new_entities_eq (st : ManagerState) (ids : List String) :
    generate_new_entities st ids =
      ({ st with managed_external_ids := insertAll st.managed_external_ids ids },
       [⟨Event.add_entities (ids.map LocationEvent.init) true,
         insertAll st.managed_external_ids ids⟩]) := by
  show (({ st with managed_external_ids :=
            (ids.foldl genStep ([], st.managed_external_ids)).2 },
        [⟨Event.add_entities (ids.foldl genStep ([], st.managed_external_ids)).1
            true,
          (ids.foldl genStep ([], st.managed_external_ids)).2⟩]) :
      ManagerState × List TraceItem) =
    ({ st with managed_external_ids := insertAll st.managed_external_ids ids },
     [⟨Event.add_entities (ids.map LocationEvent.init) true,
       insertAll st.managed_external_ids ids⟩])
  rw [genFold_fst, genFold_snd]
  simp

/-! ### Unfolding lemmas for a success cycle -/

theorem after_remove_managed (st : ManagerState) (fetched : List FeedEntry) :
    (after_remove st fetched).1.managed_external_ids =
      eraseAll st.managed_external_ids (remove_external_ids st fetched) := by
  unfold after_remove
  rw [remove_entities_managed]

theorem after_remove_feed (st : ManagerState) (fetched : List FeedEntry) :
    (after_remove st fetched).1.feed_entries = buildDict fetched := by
  unfold after_remove
  rw [remove_entities_feed]

theorem after_update_fst (st : ManagerState) (fetched : List FeedEntry) :
    (after_update st fetched).1 = (after_remove st fetched).1 := rfl

theorem update_ok_fst (st : ManagerState) (fetched : List FeedEntry) :
    (update st FetchStatus.update_ok fetched).1 =
      { feed_entries := buildDict fetched,
        managed_external_ids :=
          insertAll
            (eraseAll st.managed_external_ids (remove_external_ids st fetched))
            (create_external_ids st fetched) } := by
  have h1 : (update st FetchStatus.update_ok fetched).1 =
      (generate_new_entities (after_remove st fetched).1
        (create_external_ids st fetched)).1 := rfl
  rw [h1, generate_new_entities_eq]
  have h2 : (after_remove st fetched).1 =
      { feed_entries := buildDict fetched,
        managed_external_ids :=
          eraseAll st.managed_external_ids (remove_external_ids st fetched) } := by
    unfold after_remove
    rw [remove_entities_fst]
  rw [h2]

theorem update_ok_managed (st : ManagerState) (fetched : List FeedEntry) :
    (update st FetchStatus.update_ok fetched).1.managed_external_ids =
      insertAll
        (eraseAll st.managed_external_ids (remove_external_ids st fetched))
        (create_external_ids st fetched) := by
  rw [update_ok_fst]

theorem update_ok_feed (st : ManagerState) (fetched : List FeedEntry) :
    (update st FetchStatus.update_ok fetched).1.feed_entries =
      buildDict fetched := by
  rw [update_ok_fst]

theorem update_ok_snd (st : ManagerState) (fetched : List FeedEntry) :
    (update st FetchStatus.update_ok fetched).2 =
      (after_remove st fetched).2
      ++ (update_external_ids st fetched).map
           (fun x => ⟨Event.update_signal x,
             (after_remove st fetched).1.managed_external_ids⟩)
      ++ [⟨Event.add_entities
             ((create_external_ids st fetched).map LocationEvent.init) true,
           insertAll (after_remove st fetched).1.managed_external_ids
             (create_external_ids st fetched)⟩] := by
  have h1 : (update st FetchStatus.update_ok fetched).2 =
      (after_remove st fetched).2
      ++ (update_entities (after_remove st fetched).1
            (update_external_ids st fetched)).2
      ++ (generate_new_entities (after_remove st fetched).1
            (create_external_ids st fetched)).2 := rfl
  rw [h1, generate_new_entities_eq]
  rfl

/-- Membership in the tracked set right after the removal step of a
success cycle: exactly the previously tracked ids that are also fetched. -/
theorem after_remove_managed_mem (st : ManagerState) (fetched : List FeedEntry)
    (h : st.managed_external_ids.Nodup) (y : String) :
    y ∈ (after_remove st fetched).1.managed_external_ids ↔
      y ∈ st.managed_external_ids ∧ y ∈ feed_external_ids fetched := by
  rw [after_remove_managed,
    mem_eraseAll (remove_external_ids st fetched) st.managed_external_ids y h]
  simp only [remove_external_ids, mem_setDiff]
  tauto

theorem mem_create_external_ids (st : ManagerState) (fetched : List FeedEntry)
    (h : st.managed_external_ids.Nodup) (y : String) :
    y ∈ create_external_ids st fetched ↔
      y ∈ feed_external_ids fetched ∧ y ∉ st.managed_external_ids := by
  simp only [create_external_ids, mem_setDiff, after_update_fst,
    after_remove_managed_mem st fetched h]
  tauto

/-- Membership in the tracked set after a full success cycle: exactly the
fetched identifier set. -/
theorem update_ok_managed_mem (st : ManagerState) (fetched : List FeedEntry)
    (h : st.managed_external_ids.Nodup) (y : String) :
    y ∈ (update st FetchStatus.update_ok fetched).1.managed_external_ids ↔
      y ∈ feed_external_ids fetched := by
  rw [update_ok_managed, mem_insertAll]
  have h1 := after_remove_managed_mem st fetched h y
  rw [after_remove_managed] at h1
  rw [h1, mem_create_external_ids st fetched h]
  tauto

theorem nodup_update_ok_managed (st : ManagerState) (fetched : List FeedEntry)
    (h : st.managed_external_ids.Nodup) :
    (update st FetchStatus.update_ok fetched).1.managed_external_ids.Nodup := by
  rw [update_ok_managed]
  exact nodup_insertAll _ _ (nodup_eraseAll _ _ h)

/-! ### Counting events in a trace -/

theorem countEvent_eq (tr : List TraceItem) (e : Event) :
    countEvent tr e =
      ((tr.map TraceItem.event).filter (fun x => decide (x = e))).length := by
  rw [length_filter_map]
  rfl

theorem countEvent_append (tr1 tr2 : List TraceItem) (e : Event) :
    countEvent (tr1 ++ tr2) e = countEvent tr1 e + countEvent tr2 e := by
  simp [countEvent, List.filter_append]

theorem countEvent_delete_map (ids : List String) (x : String)
    (h : ids.Nodup) :
    ((ids.map Event.delete_signal).filter
        (fun y => decide (y = Event.delete_signal x))).length =
      if x ∈ ids then 1 else 0 := by
  rw [length_filter_map]
  have heq : ∀ y : String,
      (decide (Event.delete_signal y = Event.delete_signal x)) =
        (decide (y = x)) := by
    intro y
    by_cases hyx : y = x
    · simp [hyx]
    · simp [hyx]
  simp only [heq]
  exact length_filter_eq_of_nodup h

theorem countEvent_update_map (ids : List String) (m : List String) (x : String)
    (h : ids.Nodup) :
    countEvent (ids.map (fun y => ⟨Event.update_signal y, m⟩)) (Event.update_signal x) =
      if x ∈ ids then 1 else 0 := by
  rw [countEvent_eq, List.map_map]
  have hmap : (ids.map (TraceItem.event ∘ fun y =>
      (⟨Event.update_signal y, m⟩ : TraceItem))) = ids.map Event.update_signal := rfl
  rw [hmap, length_filter_map]
  have heq : ∀ y : String,
      (decide (Event.update_signal y = Event.update_signal x)) =
        (decide (y = x)) := by
    intro y
    by_cases hyx : y = x
    · simp [hyx]
    · simp [hyx]
  simp only [heq]
  exact length_filter_eq_of_nodup h

/-! ### Claim statements and theorems -/

/-- What a failure cycle actually does: one delete signal per tracked id,
in tracked order, tracked set emptied, current_records untouched. -/
def C1Statement (st : ManagerState) (fetched : List FeedEntry) : Prop :=
  ((update st FetchStatus.update_error fetched).2.map TraceItem.event =
      st.managed_external_ids.map Event.delete_signal)
  ∧ (∀ x ∈ st.managed_external_ids,
      countEvent (update st FetchStatus.update_error fetched).2
        (Event.delete_signal x) = 1)
  ∧ (update st FetchStatus.update_error fetched).1.managed_external_ids = []
  ∧ (update st FetchStatus.update_error fetched).1.feed_entries =
      st.feed_entries

/-- C1 (amended): a failure cycle with N tracked identifiers emits exactly
one delete signal per previously tracked identifier (exactly N signals,
zero when N = 0) and empties tracked_ids; current_records is left
*unchanged* (the code does not clear feed_entries on failure). -/
theorem C1_failure_sweep (st : ManagerState) (fetched : List FeedEntry)
    (h : st.managed_external_ids.Nodup) : C1Statement st fetched := by
  have hev : (update st FetchStatus.update_error fetched).2.map TraceItem.event =
      st.managed_external_ids.map Event.delete_signal :=
    remove_entities_events st.managed_external_ids st
  refine ⟨hev, ?_, ?_, ?_⟩
  · intro x hx
    rw [countEvent_eq, hev, countEvent_delete_map _ _ h, if_pos hx]
  · calc (update st FetchStatus.update_error fetched).1.managed_external_ids
        = eraseAll st.managed_external_ids st.managed_external_ids :=
          remove_entities_managed st.managed_external_ids st
      _ = [] := eraseAll_self _
  · exact remove_entities_feed st.managed_external_ids st

/-- C1 witness: the failure sweep at a concrete one-id state. -/
theorem C1_failure_sweep_witness :
    st0.managed_external_ids.Nodup ∧ C1Statement st0 [] :=
  ⟨by decide, C1_failure_sweep st0 [] (by decide)⟩

/-- C1 counterexample: after a failure cycle starting from a state whose
current_records holds one entry, current_records is not empty, contrary to
the claim that the failure cycle leaves current_records empty. -/
theorem C1_counterexample :
    ¬ ((update st0 FetchStatus.update_error []).1.feed_entries = []) := by
  decide

/-- The spec invariant tracked_ids == keys(current_records). -/
def trackedInvariant (st : ManagerState) : Prop :=
  ∀ x : String, x ∈ st.managed_external_ids ↔ x ∈ keysOf st.feed_entries

/-- What one cycle does to the invariant: preserved on both success
outcomes; on failure tracked_ids is emptied while current_records keeps
its previous value. -/
def C2Statement (st : ManagerState) (status : FetchStatus)
    (fetched : List FeedEntry) : Prop :=
  (status ≠ FetchStatus.update_error →
    trackedInvariant (update st status fetched).1)
  ∧ ((update st FetchStatus.update_error fetched).1.managed_external_ids = []
     ∧ (update st FetchStatus.update_error fetched).1.feed_entries =
         st.feed_entries)

/-- C2 (amended): starting from tracked_ids = keys(current_records), the
invariant holds again after a success-with-data or success-no-data cycle;
a failure cycle instead empties tracked_ids while leaving current_records
unchanged, so the invariant is broken whenever current_records was
non-empty. -/
theorem C2_invariant (st : ManagerState) (status : FetchStatus)
    (fetched : List FeedEntry) (h : st.managed_external_ids.Nodup)
    (hinv : trackedInvariant st) : C2Statement st status fetched := by
  constructor
  · intro hs
    cases status with
    | update_ok =>
      intro x
      rw [update_ok_managed_mem st fetched h x, update_ok_feed]
      exact Iff.rfl
    | update_ok_no_data => exact hinv
    | update_error => exact absurd rfl hs
  · constructor
    · calc (update st FetchStatus.update_error fetched).1.managed_external_ids
          = eraseAll st.managed_external_ids st.managed_external_ids :=
            remove_entities_managed st.managed_external_ids st
        _ = [] := eraseAll_self _
    · exact remove_entities_feed st.managed_external_ids st

/-- C2 witness: the invariant-preservation statement at a concrete state
and a success-with-data fetch. -/
theorem C2_invariant_witness :
    st0.managed_external_ids.Nodup ∧ trackedInvariant st0 ∧
      C2Statement st0 FetchStatus.update_ok [sampleEntryB] :=
  ⟨by decide, fun x => Iff.rfl,
   C2_invariant st0 FetchStatus.update_ok [sampleEntryB] (by decide)
     (fun x => Iff.rfl)⟩

/-- C2 counterexample: a failure cycle breaks the invariant — afterwards
"a" is still a key of current_records but is no longer tracked. -/
theorem C2_counterexample :
    ("a" ∈ keysOf (update st0 FetchStatus.update_error []).1.feed_entries)
    ∧ ("a" ∉ (update st0 FetchStatus.update_error []).1.managed_external_ids) := by
  decide

/-- C3: a success-no-data cycle leaves current_records and tracked_ids
exactly as they were and emits no signal at all. -/
theorem C3_no_data_noop (st : ManagerState) (fetched : List FeedEntry) :
    (update st FetchStatus.update_ok_no_data fetched).1.feed_entries =
        st.feed_entries
    ∧ (update st FetchStatus.update_ok_no_data fetched).1.managed_external_ids =
        st.managed_external_ids
    ∧ (update st FetchStatus.update_ok_no_data fetched).2 = [] :=
  ⟨rfl, rfl, rfl⟩

/-- Wholesale replacement, pairwise disjointness of the three id sets, and
the new tracked set being exactly the fetched id set. -/
def C4Statement (st : ManagerState) (fetched : List FeedEntry) : Prop :=
  (update st FetchStatus.update_ok fetched).1.feed_entries = buildDict fetched
  ∧ (∀ x : String,
      ¬ (x ∈ remove_external_ids st fetched ∧ x ∈ update_external_ids st fetched))
  ∧ (∀ x : String,
      ¬ (x ∈ remove_external_ids st fetched ∧ x ∈ create_external_ids st fetched))
  ∧ (∀ x : String,
      ¬ (x ∈ update_external_ids st fetched ∧ x ∈ create_external_ids st fetched))
  ∧ (∀ x : String,
      x ∈ (update st FetchStatus.update_ok fetched).1.managed_external_ids ↔
        x ∈ feed_external_ids fetched)

/-- C4: on success-with-data, current_records is replaced wholesale by the
new mapping keyed by external_id, the remove/update/create id sets are
pairwise disjoint, and afterwards tracked_ids is exactly the fetched
identifier set. -/
theorem C4_partition (st : ManagerState) (fetched : List FeedEntry)
    (h : st.managed_external_ids.Nodup) : C4Statement st fetched := by
  refine ⟨update_ok_feed st fetched, ?_, ?_, ?_,
    fun x => update_ok_managed_mem st fetched h x⟩
  · rintro x ⟨hr, hu⟩
    simp only [remove_external_ids, mem_setDiff] at hr
    simp only [update_external_ids, mem_setInter] at hu
    exact hr.2 hu.2
  · rintro x ⟨hr, hc⟩
    simp only [remove_external_ids, mem_setDiff] at hr
    simp only [create_external_ids, mem_setDiff] at hc
    exact hr.2 hc.1
  · rintro x ⟨hu, hc⟩
    simp only [update_external_ids, mem_setInter] at hu
    simp only [create_external_ids, mem_setDiff, after_update_fst] at hc
    exact hc.2 hu.1

/-- C4 witness: the partition statement at a concrete state and fetch. -/
theorem C4_partition_witness :
    st0.managed_external_ids.Nodup ∧ C4Statement st0 [sampleEntryB] :=
  ⟨by decide, C4_partition st0 [sampleEntryB] (by decide)⟩

/-- C5: within a success-with-data cycle, the trace splits into a removal
phase, then an update phase, then the creation/registration phase. -/
theorem C5_phase_order (st : ManagerState) (fetched : List FeedEntry) :
    ∃ t1 t2 t3 : List TraceItem,
      (update st FetchStatus.update_ok fetched).2 = t1 ++ t2 ++ t3
      ∧ (∀ it ∈ t1, ∃ x, it.event = Event.delete_signal x)
      ∧ (∀ it ∈ t2, ∃ x, it.event = Event.update_signal x)
      ∧ (∀ it ∈ t3, ∃ es b, it.event = Event.add_entities es b) := by
  refine ⟨(after_remove st fetched).2,
    (update_external_ids st fetched).map
      (fun x => ⟨Event.update_signal x,
        (after_remove st fetched).1.managed_external_ids⟩),
    [⟨Event.add_entities
        ((create_external_ids st fetched).map LocationEvent.init) true,
      insertAll (after_remove st fetched).1.managed_external_ids
        (create_external_ids st fetched)⟩],
    update_ok_snd st fetched, ?_, ?_, ?_⟩
  · exact remove_entities_delete_kind (remove_external_ids st fetched) _
  · intro it hit
    rcases List.mem_map.mp hit with ⟨x, _, rfl⟩
    exact ⟨x, rfl⟩
  · intro it hit
    rw [List.mem_singleton] at hit
    subst hit
    exact ⟨_, _, rfl⟩

/-- Every delete signal in a cycle carries a snapshot of the tracked set
in which its identifier is already gone. -/
def C6Statement (st : ManagerState) (status : FetchStatus)
    (fetched : List FeedEntry) : Prop :=
  ∀ it ∈ (update st status fetched).2, ∀ x : String,
    it.event = Event.delete_signal x → x ∉ it.tracked

/-- C6: for every identifier processed for removal — in the to_remove set
of a success cycle or in the failure sweep — the identifier leaves
tracked_ids strictly before its delete signal is emitted, so the tracked
set visible at emission time never contains it. -/
theorem C6_remove_before_signal (st : ManagerState) (status : FetchStatus)
    (fetched : List FeedEntry) (h : st.managed_external_ids.Nodup) :
    C6Statement st status fetched := by
  cases status with
  | update_ok =>
    intro it hit x hx
    rw [update_ok_snd] at hit
    rcases List.mem_append.mp hit with hit | hit
    · rcases List.mem_append.mp hit with hit | hit
      · exact remove_entities_snapshot (remove_external_ids st fetched)
          { st with feed_entries := buildDict fetched } h it hit x hx
      · rcases List.mem_map.mp hit with ⟨y, _, rfl⟩
        exact Event.noConfusion hx
    · rw [List.mem_singleton] at hit
      subst hit
      exact Event.noConfusion hx
  | update_ok_no_data =>
    intro it hit
    exact absurd hit (List.not_mem_nil it)
  | update_error =>
    intro it hit x hx
    exact remove_entities_snapshot st.managed_external_ids st h it hit x hx

/-- C6 witness: the delete signal of a concrete failure sweep. -/
theorem C6_remove_before_signal_witness :
    st0.managed_external_ids.Nodup ∧
      C6Statement st0 FetchStatus.update_error [] :=
  ⟨by decide,
   C6_remove_before_signal st0 FetchStatus.update_error [] (by decide)⟩

theorem countEvent_eq_zero (tr : List TraceItem) (e : Event)
    (h : ∀ it ∈ tr, it.event ≠ e) : countEvent tr e = 0 := by
  unfold countEvent
  rw [List.filter_eq_nil_iff.mpr]
  · rfl
  · intro it hit
    simp only [decide_eq_true_eq]
    exact h it hit

/-- A success cycle whose fetched identifier set coincides with the
currently tracked set: one update signal per tracked id, no delete
signals, an empty creation batch, and an unchanged tracked set. -/
theorem steady_cycle (st1 : ManagerState) (fetched2 : List FeedEntry)
    (hn : st1.managed_external_ids.Nodup)
    (hmem : ∀ x : String,
      x ∈ st1.managed_external_ids ↔ x ∈ feed_external_ids fetched2) :
    (∀ x ∈ feed_external_ids fetched2,
        countEvent (update st1 FetchStatus.update_ok fetched2).2
          (Event.update_signal x) = 1)
    ∧ (∀ x : String,
        countEvent (update st1 FetchStatus.update_ok fetched2).2
          (Event.delete_signal x) = 0)
    ∧ (∀ it ∈ (update st1 FetchStatus.update_ok fetched2).2, ∀ es b,
        it.event = Event.add_entities es b → es = [])
    ∧ (update st1 FetchStatus.update_ok fetched2).1.managed_external_ids =
        st1.managed_external_ids := by
  have hrem : remove_external_ids st1 fetched2 = [] := by
    unfold remove_external_ids setDiff
    apply List.filter_eq_nil_iff.mpr
    intro a ha
    simp only [decide_eq_true_eq, not_not]
    exact (hmem a).mp ha
  have hid : (after_remove st1 fetched2).1.managed_external_ids =
      st1.managed_external_ids := by
    rw [after_remove_managed, hrem]
    rfl
  have hupd : update_external_ids st1 fetched2 = st1.managed_external_ids := by
    unfold update_external_ids setInter
    rw [hid]
    apply List.filter_eq_self.mpr
    intro a ha
    simp only [decide_eq_true_eq]
    exact (hmem a).mp ha
  have hcre : create_external_ids st1 fetched2 = [] := by
    unfold create_external_ids setDiff
    simp only [after_update_fst, hid]
    apply List.filter_eq_nil_iff.mpr
    intro a ha
    simp only [decide_eq_true_eq, not_not]
    exact (hmem a).mpr ha
  have htr1 : (after_remove st1 fetched2).2 = [] := by
    unfold after_remove
    rw [hrem]
    rfl
  have htrace : (update st1 FetchStatus.update_ok fetched2).2 =
      [] ++ st1.managed_external_ids.map
        (fun x => ⟨Event.update_signal x,
          (after_remove st1 fetched2).1.managed_external_ids⟩)
      ++ [⟨Event.add_entities [] true,
           insertAll (after_remove st1 fetched2).1.managed_external_ids []⟩] := by
    rw [update_ok_snd, htr1, hupd, hcre]
    rfl
  refine ⟨?_, ?_, ?_, ?_⟩
  · intro x hx
    rw [htrace, countEvent_append, countEvent_append,
      countEvent_update_map _ _ _ hn]
    have h0 : countEvent [] (Event.update_signal x) = 0 := rfl
    have h1 : countEvent [⟨Event.add_entities [] true,
        insertAll (after_remove st1 fetched2).1.managed_external_ids []⟩]
        (Event.update_signal x) = 0 := by
      apply countEvent_eq_zero
      intro it hit
      rw [List.mem_singleton] at hit
      subst hit
      exact fun hc => Event.noConfusion hc
    rw [h0, h1, if_pos ((hmem x).mpr hx)]
  · intro x
    apply countEvent_eq_zero
    intro it hit
    rw [htrace] at hit
    rcases List.mem_append.mp hit with hit | hit
    · rcases List.mem_append.mp hit with hit | hit
      · exact absurd hit (List.not_mem_nil it)
      · rcases List.mem_map.mp hit with ⟨y, _, rfl⟩
        exact fun hc => Event.noConfusion hc
    · rw [List.mem_singleton] at hit
      subst hit
      exact fun hc => Event.noConfusion hc
  · intro it hit es b hx
    rw [htrace] at hit
    rcases List.mem_append.mp hit with hit | hit
    · rcases List.mem_append.mp hit with hit | hit
      · exact absurd hit (List.not_mem_nil it)
      · rcases List.mem_map.mp hit with ⟨y, _, rfl⟩
        exact Event.noConfusion hx
    · rw [List.mem_singleton] at hit
      subst hit
      injection hx with h1 h2
      exact h1.symm
  · rw [update_ok_managed, hrem, hcre]
    rfl

/-- The second cycle of two consecutive success cycles over the same
identifier set: exactly one update signal per fetched id, no delete
signal, only empty creation batches, tracked_ids unchanged. -/
def C7Statement (st : ManagerState) (fetched1 fetched2 : List FeedEntry) : Prop :=
  (∀ x ∈ feed_external_ids fetched2,
      countEvent (update (update st FetchStatus.update_ok fetched1).1
        FetchStatus.update_ok fetched2).2 (Event.update_signal x) = 1)
  ∧ (∀ x : String,
      countEvent (update (update st FetchStatus.update_ok fetched1).1
        FetchStatus.update_ok fetched2).2 (Event.delete_signal x) = 0)
  ∧ (∀ it ∈ (update (update st FetchStatus.update_ok fetched1).1
        FetchStatus.update_ok fetched2).2, ∀ es b,
      it.event = Event.add_entities es b → es = [])
  ∧ (update (update st FetchStatus.update_ok fetched1).1
        FetchStatus.update_ok fetched2).1.managed_external_ids =
      (update st FetchStatus.update_ok fetched1).1.managed_external_ids

/-- C7: if two consecutive success cycles fetch the same identifier set,
the second cycle emits exactly one update signal per identifier, zero
delete signals, constructs no consumer, and leaves tracked_ids unchanged. -/
theorem C7_idempotent (st : ManagerState) (fetched1 fetched2 : List FeedEntry)
    (h : st.managed_external_ids.Nodup)
    (hsame : ∀ x : String,
      x ∈ feed_external_ids fetched1 ↔ x ∈ feed_external_ids fetched2) :
    C7Statement st fetched1 fetched2 :=
  steady_cycle (update st FetchStatus.update_ok fetched1).1 fetched2
    (nodup_update_ok_managed st fetched1 h)
    (fun x => (update_ok_managed_mem st fetched1 h x).trans (hsame x))

/-- C7 witness: two identical concrete fetches in a row. -/
theorem C7_idempotent_witness :
    st0.managed_external_ids.Nodup ∧ C7Statement st0 [sampleEntry] [sampleEntry] :=
  ⟨by decide,
   C7_idempotent st0 [sampleEntry] [sampleEntry] (by decide)
     (fun x => Iff.rfl)⟩

/-- Recognises the add_entities effect in a trace. -/
def isAddEvent (it : TraceItem) : Bool :=
  match it.event with
  | Event.add_entities _ _ => true
  | _ => false

theorem filter_isAdd_ok (st : ManagerState) (fetched : List FeedEntry) :
    (update st FetchStatus.update_ok fetched).2.filter isAddEvent =
      [⟨Event.add_entities
          ((create_external_ids st fetched).map LocationEvent.init) true,
        insertAll (after_remove st fetched).1.managed_external_ids
          (create_external_ids st fetched)⟩] := by
  rw [update_ok_snd, List.filter_append, List.filter_append]
  have h1 : (after_remove st fetched).2.filter isAddEvent = [] := by
    apply List.filter_eq_nil_iff.mpr
    intro it hit
    rcases remove_entities_delete_kind (remove_external_ids st fetched) _
      it hit with ⟨x, hx⟩
    simp [isAddEvent, hx]
  have h2 : ((update_external_ids st fetched).map
      (fun x => (⟨Event.update_signal x,
        (after_remove st fetched).1.managed_external_ids⟩ : TraceItem))).filter
        isAddEvent = [] := by
    apply List.filter_eq_nil_iff.mpr
    intro it hit
    rcases List.mem_map.mp hit with ⟨y, _, rfl⟩
    simp [isAddEvent]
  rw [h1, h2]
  rfl

/-- C8: on a success cycle, exactly one add_entities call occurs; its batch
contains one freshly constructed consumer per identifier in to_create,
its snapshot of tracked_ids is the final tracked set, and every created
identifier ends up tracked. -/
theorem C8_batch_registration (st : ManagerState) (fetched : List FeedEntry) :
    ((update st FetchStatus.update_ok fetched).2.filter isAddEvent =
      [⟨Event.add_entities
          ((create_external_ids st fetched).map LocationEvent.init) true,
        (update st FetchStatus.update_ok fetched).1.managed_external_ids⟩])
    ∧ (∀ x ∈ create_external_ids st fetched,
        x ∈ (update st FetchStatus.update_ok fetched).1.managed_external_ids) := by
  constructor
  · rw [filter_isAdd_ok, update_ok_managed, after_remove_managed]
  · intro x hx
    rw [update_ok_managed, mem_insertAll]
    exact Or.inr hx

/-- C9: a consumer whose external_id is absent from the manager's
feed_entries is left entirely unchanged by async_update. -/
theorem C9_absent_id_refresh (mgr : ManagerState) (e : LocationEvent)
    (h : e.external_id ∉ keysOf mgr.feed_entries) :
    async_update mgr e = e := by
  have hf : mgr.feed_entries.find? (fun p => decide (p.1 = e.external_id)) =
      none := by
    apply List.find?_eq_none.mpr
    intro p hp
    simp only [decide_eq_true_eq]
    intro hk
    exact h (hk ▸ List.mem_map_of_mem Prod.fst hp)
  have hg : dict_get mgr.feed_entries e.external_id = none := by
    unfold dict_get
    rw [hf]
    rfl
  unfold async_update
  rw [hg]

/-- C9 witness: updating a consumer for an untracked id at a concrete
state changes nothing. -/
theorem C9_absent_id_refresh_witness :
    (LocationEvent.init "b").external_id ∉ keysOf st0.feed_entries ∧
      async_update st0 (LocationEvent.init "b") = LocationEvent.init "b" :=
  ⟨by decide, C9_absent_id_refresh st0 (LocationEvent.init "b") (by decide)⟩

/-- C10: a success-with-data cycle performs exactly one add_entities call,
always with the flag True (even for an empty batch); success-no-data and
failure cycles never call add_entities. -/
theorem C10_registration_once (st : ManagerState) (fetched : List FeedEntry) :
    (((update st FetchStatus.update_ok fetched).2.filter isAddEvent).length = 1)
    ∧ (∀ it ∈ (update st FetchStatus.update_ok fetched).2, ∀ es b,
        it.event = Event.add_entities es b → b = true)
    ∧ ((update st FetchStatus.update_ok_no_data fetched).2.filter isAddEvent = [])
    ∧ ((update st FetchStatus.update_error fetched).2.filter isAddEvent = []) := by
  refine ⟨?_, ?_, ?_, ?_⟩
  · rw [filter_isAdd_ok]
    rfl
  · intro it hit es b hx
    rw [update_ok_snd] at hit
    rcases List.mem_append.mp hit with hit | hit
    · rcases List.mem_append.mp hit with hit | hit
      · rcases remove_entities_delete_kind (remove_external_ids st fetched) _
          it hit with ⟨y, hy⟩
        rw [hy] at hx
        exact Event.noConfusion hx
      · rcases List.mem_map.mp hit with ⟨y, _, rfl⟩
        exact Event.noConfusion hx
    · rw [List.mem_singleton] at hit
      subst hit
      injection hx with h1 h2
      exact h2.symm
  · rfl
  · apply List.filter_eq_nil_iff.mpr
    intro it hit
    rcases remove_entities_delete_kind st.managed_external_ids st it hit with
      ⟨x, hx⟩
    simp [isAddEvent, hx]

end NswRuralFireService
